import Mathlib

/-!
# Verification of the per-room multiplayer session coordinator

Shallow embedding of `src/src/multiplayer.mjs` (the `ChatRoom` Durable Object:
session attach sequence, steady-state dispatch, broadcast primitives, dead-hand
cleanup, lazy single-flight room initialization, and the HTTP `fetch` front of
the room object).

Conventions of the embedding:
* A WebSocket send is an observable `Event.send target payload`.  JavaScript
  object identity of a session (`s !== session`) is modelled by a numeric `id`.
* `webSocket.send` can throw; a session's `sendOk` flag models whether a send
  on that socket succeeds.  A `false` result component models the exception
  propagating out of the surrounding loop, exactly as in JavaScript.
* The wire codec (`serializeMessage` / `parseUpdateObject`) is opaque and
  injective per message kind, so frames are carried as structured values and
  "the original frame bytes" is `Payload.original f`.
* Code of the repository that lives outside `src/` (the DataClient, the
  networked client `handlesMethod` predicates, `removeUpdate`, the event
  emitters) is modelled from the spec; each such definition carries a comment.
-/

set_option autoImplicit false

namespace Multiplayer

/-! ## Method classes

Modelled from the spec: the `handlesMethod` predicates live in
`public/*-client*.mjs`, which is not under `src/`.  The spec fixes the
handshake tags `JOIN=3 LEAVE=4 CHAT=5 LOG=6 AUDIO=7..9 VIDEO=10..12` and says
that the data, document-CRDT and lock method sets occupy disjoint numeric
ranges; we model those three as representative disjoint ranges. -/

/-- Modelled from the spec: method set of `NetworkedDataClient.handlesMethod`. -/
def dataHandlesMethod (m : Nat) : Bool := 13 ≤ m && m ≤ 19

/-- Modelled from the spec: method set of `NetworkedCrdtClient.handlesMethod`. -/
def crdtHandlesMethod (m : Nat) : Bool := 20 ≤ m && m ≤ 24

/-- Modelled from the spec: method set of `NetworkedLockClient.handlesMethod`
(`LOCK_REQUEST`, `LOCK_RESPONSE`, `LOCK_RELEASE`). -/
def lockHandlesMethod (m : Nat) : Bool := 25 ≤ m && m ≤ 27

/-- Modelled from the spec: method set of `NetworkedIrcClient.handlesMethod`
(the IRC / chat class of the handshake tags). -/
def ircHandlesMethod (m : Nat) : Bool := 3 ≤ m && m ≤ 6

/-- Modelled from the spec: `networkedAudioClientHandlesMethod`. -/
def audioHandlesMethod (m : Nat) : Bool := 7 ≤ m && m ≤ 9

/-- Modelled from the spec: `networkedVideoClientHandlesMethod`. -/
def videoHandlesMethod (m : Nat) : Bool := 10 ≤ m && m ≤ 12

/-! ## Data model -/

/-- A `deadhand`/`livehand` event emitted by the data client when an update is
emitted.  Modelled from the spec: the data client "emits `deadhand` and
`livehand` events referencing a set of composite keys"; the events a given
update produces are internal to the (out-of-`src/`) DataClient, so the frame
carries the event its emission produces. -/
structure HandEvent where
  keys : List String
  hand : Option String
  isDead : Bool
deriving DecidableEq

/-- An inbound binary frame after `parseUpdateObject`: the routing `method`
plus the modelled outcome of `dataClient.applyUint8Array` on it
(`hasRollback` / `hasUpdate`, per the spec "may yield `{rollback, update}`")
and the hand event its `emitUpdate` dispatches (if any). -/
structure Frame where
  method : Nat
  hasRollback : Bool
  hasUpdate : Bool
  handEvent : Option HandEvent
deriving DecidableEq

/-- An inbound WebSocket message: binary (an `ArrayBuffer`) or text. -/
inductive Msg where
  | binary (f : Frame)
  | text (s : String)
deriving DecidableEq

/-- Payload of an outbound send.  Distinct constructors model the distinct
serialized messages produced by the coordinator. -/
inductive Payload where
  | original (f : Frame)
  | rollback (f : Frame)
  | importSnapshot
  | crdtSnapshot
  | networkInit (playerIds : List String)
  | joinMsg (pid : String)
  | removeUpdate (arrayId : String) (arrayIndexId : String)
  | errorJson
deriving DecidableEq

/-- Observable events of the coordinator. -/
inductive Event where
  | pushSession
  | send (target : Nat) (p : Payload)
  | emitUpd (f : Frame)
  | emitJoin (pid : String)
  | dispatch (m : Msg)
deriving DecidableEq

/-- A session (`{webSocket, playerId, quit?}` in the source).  `id` models the
JavaScript object identity of the session; `sendOk` models whether
`webSocket.send` succeeds on this session's socket. -/
structure Session where
  id : Nat
  playerId : Option String
  sendOk : Bool
  quit : Bool
deriving DecidableEq

/-- State of the map-of-maps data-client replica, restricted to what the
coordinator observes: for each `arrayId`, the list of `arrayIndexId` keys
present in the named array (`getArray(...).getKeys()` / `.hasKey(...)`). -/
abbrev DataClientState := List (String × List String)

/-- Entry of a session's `deadHands` table: `{arrayId, arrayIndexId}` with
`arrayIndexId = none` for array scope. -/
structure DeadHandEntry where
  arrayId : String
  arrayIndexId : Option String
deriving DecidableEq

/-- A session's `deadHands` map: composite key → entry, insertion ordered. -/
abbrev DeadHands := List (String × DeadHandEntry)

/-- Keys of `dataClient.getArray(arrayId)` (empty when absent). -/
def dcKeys (dc : DataClientState) (arrayId : String) : List String :=
  ((dc.find? (fun p => p.1 = arrayId)).map (fun p => p.2)).getD []

/-! ## Broadcast primitives (source lines 462-480)

Faithful to the source: there is no try/catch around the loop body and no
check of the `quit` flag; a throwing `send` aborts the loop and propagates
(the `false` component). -/

/-- `respondToSelf` (line 463): send to the originator only. -/
def respondToSelf (self : Session) (m : Payload) : List Event × Bool :=
  if self.sendOk then ([Event.send self.id m], true) else ([], false)

/-- `proxyMessageToPeers` (line 468): send to every session in the list except
the originator (`s !== session`, modelled by `id`). -/
def proxyMessageToPeers (sessions : List Session) (self : Session) (m : Payload) :
    List Event × Bool :=
  match sessions with
  | [] => ([], true)
  | s :: rest =>
    if s.id ≠ self.id then
      if s.sendOk then
        let r := proxyMessageToPeers rest self m
        (Event.send s.id m :: r.1, r.2)
      else ([], false)
    else proxyMessageToPeers rest self m

/-- `reflectMessageToPeers` (line 476): send to every session including the
originator. -/
def reflectMessageToPeers (sessions : List Session) (m : Payload) :
    List Event × Bool :=
  match sessions with
  | [] => ([], true)
  | s :: rest =>
    if s.sendOk then
      let r := reflectMessageToPeers rest m
      (Event.send s.id m :: r.1, r.2)
    else ([], false)

/-! ## Dead-hand tracking (source lines 350-443) -/

/-- Split a character list at a separator (auxiliary for `splitOnChar`). -/
def splitOnCharAux (sep : Char) : List Char → List Char → List String
  | [], acc => [String.mk acc.reverse]
  | c :: rest, acc =>
    if c = sep then String.mk acc.reverse :: splitOnCharAux sep rest []
    else splitOnCharAux sep rest (c :: acc)

/-- Split a string at every occurrence of `sep` (so `""` gives `[""]`,
`"a.b"` at `'.'` gives `["a", "b"]`), mirroring `String.splitOn` on a
single-character separator. -/
def splitOnChar (sep : Char) (s : String) : List String :=
  splitOnCharAux sep s.toList []

/-- Parse a dead-hand composite key, as the two regexes of the `deadhand`
listener (lines 415-429): `^([^.]+?)\.([^.]+)$` (map scope) else `^([^.]+)$`
(array scope) else the listener throws `invalid deadhand key`. -/
def parseDeadHandKey (key : String) : Option DeadHandEntry :=
  match splitOnChar '.' key with
  | [a] => if a = "" then none else some ⟨a, none⟩
  | [a, b] => if a = "" || b = "" then none else some ⟨a, some b⟩
  | _ => none

/-- `deadHands.set(key, v)`: JavaScript `Map.set` semantics. -/
def dhSet (dh : DeadHands) (k : String) (v : DeadHandEntry) : DeadHands :=
  if (dh.map Prod.fst).contains k then
    dh.map (fun p => if p.1 = k then (k, v) else p)
  else dh ++ [(k, v)]

/-- The `for (const key of keys)` loop of the `deadhand` listener: inserts
parsed keys in order; a malformed key throws (the `false` component), leaving
the insertions made so far in place. -/
def registerDeadHandKeys (dh : DeadHands) : List String → DeadHands × Bool
  | [] => (dh, true)
  | k :: rest =>
    match parseDeadHandKey k with
    | some e => registerDeadHandKeys (dhSet dh k e) rest
    | none => (dh, false)

/-- The `deadhand` / `livehand` listeners registered in `handleSession`
(lines 409-443), filtered to this session's `playerId`. -/
def deadHandListener (pid : Option String) (dh : DeadHands) (e : HandEvent) :
    DeadHands × Bool :=
  if e.isDead then
    if e.hand = pid then registerDeadHandKeys dh e.keys else (dh, true)
  else
    if e.hand = pid then (e.keys.foldl (fun d k => d.filter (fun p => p.1 ≠ k)) dh, true)
    else (dh, true)

/-- `dataClient.emitUpdate(update)` as observed by this session's listeners.
Modelled from the spec: the DataClient's event dispatch is not under `src/`;
per the spec's error taxonomy a malformed dead-hand key is reported on the
originating transport, so a listener exception propagates to the caller of
`emitUpdate` (the `false` component). -/
def emitFrameUpdate (pid : Option String) (dh : DeadHands) (f : Frame) :
    DeadHands × Bool :=
  match f.handEvent with
  | some e => deadHandListener pid dh e
  | none => (dh, true)

/-! ## Steady-state dispatch (source lines 491-558) -/

/-- Accumulated result of the (non-exclusive) method-class blocks of
`handleBinaryMessage`: events so far, whether no exception has been thrown,
and the data-client / dead-hands state. -/
structure HBState where
  events : List Event
  ok : Bool
  dc : DataClientState
  dh : DeadHands
deriving DecidableEq

/-- Sequencing of one method-class block after the previous ones: a thrown
exception (ok = false) skips the remaining blocks, as in JavaScript. -/
def hbThen (r : HBState)
    (blk : DataClientState → DeadHands → List Event × Bool × DataClientState × DeadHands) :
    HBState :=
  if r.ok then
    match blk r.dc r.dh with
    | (es, ok, dc, dh) => ⟨r.events ++ es, ok, dc, dh⟩
  else r

/-- Data-client block (lines 496-506): apply the frame (modelled outcome on
the frame itself); send a present rollback to the originator only; if an
update is present, emit it locally then proxy the original bytes to peers. -/
def dataBlock (sessions : List Session) (self : Session) (f : Frame)
    (dc : DataClientState) (dh : DeadHands) :
    List Event × Bool × DataClientState × DeadHands :=
  if dataHandlesMethod f.method then
    let r1 := if f.hasRollback then respondToSelf self (Payload.rollback f) else ([], true)
    if r1.2 then
      if f.hasUpdate then
        let r2 := emitFrameUpdate self.playerId dh f
        if r2.2 then
          let r3 := proxyMessageToPeers sessions self (Payload.original f)
          (r1.1 ++ (Event.emitUpd f :: r3.1), r3.2, dc, r2.1)
        else (r1.1 ++ [Event.emitUpd f], false, dc, r2.1)
      else (r1.1, true, dc, dh)
    else (r1.1, false, dc, dh)
  else ([], true, dc, dh)

/-- Document-CRDT block (lines 507-511): apply the update to the local CRDT
replica (opaque, out of `src/`; its state is not tracked here) and proxy the
original bytes to peers. -/
def crdtBlock (sessions : List Session) (self : Session) (f : Frame)
    (dc : DataClientState) (dh : DeadHands) :
    List Event × Bool × DataClientState × DeadHands :=
  if crdtHandlesMethod f.method then
    let r := proxyMessageToPeers sessions self (Payload.original f)
    (r.1, r.2, dc, dh)
  else ([], true, dc, dh)

/-- Lock block (lines 512-547): translate and hand to `lockClient.handle`
(out of `src/`); it performs no WebSocket send inside this function, and an
unknown lock method is logged and ignored. -/
def lockBlock (_f : Frame) (dc : DataClientState) (dh : DeadHands) :
    List Event × Bool × DataClientState × DeadHands :=
  ([], true, dc, dh)

/-- IRC block (lines 548-551): reflect the original bytes to every session
including the originator. -/
def ircBlock (sessions : List Session) (f : Frame)
    (dc : DataClientState) (dh : DeadHands) :
    List Event × Bool × DataClientState × DeadHands :=
  if ircHandlesMethod f.method then
    let r := reflectMessageToPeers sessions (Payload.original f)
    (r.1, r.2, dc, dh)
  else ([], true, dc, dh)

/-- Audio / video block (lines 552-557): proxy the original bytes to peers. -/
def avBlock (sessions : List Session) (self : Session) (f : Frame)
    (dc : DataClientState) (dh : DeadHands) :
    List Event × Bool × DataClientState × DeadHands :=
  if audioHandlesMethod f.method || videoHandlesMethod f.method then
    let r := proxyMessageToPeers sessions self (Payload.original f)
    (r.1, r.2, dc, dh)
  else ([], true, dc, dh)

/-- `handleBinaryMessage` (lines 491-558): the five method-class blocks run in
source order; routing is not exclusive. -/
def handleBinaryMessage (sessions : List Session) (self : Session)
    (dc : DataClientState) (dh : DeadHands) (f : Frame) : HBState :=
  hbThen (hbThen (hbThen (hbThen (hbThen ⟨[], true, dc, dh⟩
    (dataBlock sessions self f))
    (crdtBlock sessions self f))
    (lockBlock f))
    (ircBlock sessions f))
    (avBlock sessions self f)

/-- The steady-state `message` listener (lines 588-676).  A quit session's
message is answered with a close, not dispatched.  A non-binary message
throws `got non-binary message`; any exception is caught and reported as a
JSON error frame on the originating socket (a failure of that send is
swallowed by the async listener).  The handler never removes a session from
the room's list (removal happens only in `closeOrErrorHandler`), which the
returned session list makes explicit. -/
def onMessage (sessions : List Session) (self : Session)
    (dc : DataClientState) (dh : DeadHands) (m : Msg) :
    List Event × List Session × DataClientState × DeadHands :=
  if self.quit then ([], sessions, dc, dh)
  else
    match m with
    | Msg.binary f =>
      let r := handleBinaryMessage sessions self dc dh f
      if r.ok then (r.events, sessions, r.dc, r.dh)
      else (r.events ++ (respondToSelf self Payload.errorJson).1, sessions, r.dc, r.dh)
    | Msg.text _ =>
      ((respondToSelf self Payload.errorJson).1, sessions, dc, dh)

/-- Dispatching a list of inbound messages from one session in arrival order,
threading the data-client and dead-hands state. -/
def runInbound (sessions : List Session) (self : Session)
    (dc : DataClientState) (dh : DeadHands) : List Msg → List Event
  | [] => []
  | m :: rest =>
    let r := onMessage sessions self dc dh m
    r.1 ++ runInbound sessions self r.2.2.1 r.2.2.2 rest

/-! ## Join message and attach sequence (source lines 254-710) -/

/-- `_sendJoinMessage(playerId)` (lines 560-572): only when `playerId` is
truthy (JavaScript: both `null` and the empty string are falsy), build a join
frame, emit it into the data client, then proxy it to peers. -/
def sendJoinMessage (sessions : List Session) (self : Session)
    (pid : Option String) : List Event × Bool :=
  match pid with
  | some p =>
    if p ≠ "" then
      let r := proxyMessageToPeers sessions self (Payload.joinMsg p)
      (Event.emitJoin p :: r.1, r.2)
    else ([], true)
  | none => ([], true)

/-- The replay loop of `_pauseWebSocket`'s resume closure (lines 175-182)
combined with the registered steady-state listener: the `for (const data of
queue)` loop re-dispatches `queue[idx]`; the still-registered queueing
listener appends the dispatched data back onto `queue`, so the JavaScript
array iterator sees it again — the loop only terminates when the queue was
empty, hence the explicit `fuel`.  Each dispatch runs the steady-state
handler (`onMessage`). -/
def replaySteps (sessions : List Session) (self : Session) :
    Nat → List Msg → Nat → DataClientState → DeadHands → List Event
  | 0, _, _, _, _ => []
  | fuel + 1, queue, idx, dc, dh =>
    if h : idx < queue.length then
      let m := queue.get ⟨idx, h⟩
      let r := onMessage sessions self dc dh m
      Event.dispatch m :: r.1 ++
        replaySteps sessions self fuel (queue ++ [m]) (idx + 1) r.2.2.1 r.2.2.2
    else []

/-- The observable trace of `handleSession` (lines 254-710) for a room whose
session list is `existing`, attaching `self`, where `arrivals` are the
inbound messages that arrive between transport acceptance and the end of the
attach sequence (they are queued by `_pauseWebSocket`, installed before the
first suspension point).  In source order: push the session onto
`this.sessions` (line 341); send the data-client import snapshot, the
document-CRDT initial update and the network-init frame (lines 344-348, each
`webSocket.send` may throw, aborting the rest); register the hand listeners;
send the join message; register the steady-state listener; resume the
WebSocket, replaying the queue.  `fuel` bounds the (possibly non-terminating)
replay loop. -/
def handleSessionTrace (existing : List Session) (self : Session)
    (arrivals : List Msg) (dc : DataClientState) (fuel : Nat) : List Event :=
  let sessions := existing ++ [self]
  let ninitIds := sessions.filterMap (fun s => s.playerId)
  Event.pushSession ::
    (if self.sendOk then
      Event.send self.id Payload.importSnapshot ::
      Event.send self.id Payload.crdtSnapshot ::
      Event.send self.id (Payload.networkInit ninitIds) ::
      (let j := sendJoinMessage sessions self self.playerId
       if j.2 then j.1 ++ replaySteps sessions self fuel arrivals 0 dc []
       else j.1)
    else [])

/-! ## Lazy single-flight room initialization (source lines 143-161, 270-308)

The check-and-create of the three per-room promise maps contains no `await`
at the `handleSession` top level, so under the single-threaded room model it
is atomic: concurrent attaches interleave only at the later `await`s, by
which time the maps are populated.  Promises are modelled by the numeric ids
of the client instances they resolve to; the storage reads a promise body
performs (each body runs exactly once) are appended to `getLog` at creation. -/

/-- `schemaArrayNames` (line 165). -/
def schemaArrayNames : List String := ["worldApps"]

/-- Durable storage content as the coordinator reads it: for each array key,
the property keys of the stored object (`storage.get(arrayId) ?? {}`). -/
abbrev Storage := List (String × List String)

/-- Keys of the object persisted under `k` (empty when absent). -/
def storedKeys (storage : Storage) (k : String) : List String :=
  ((storage.find? (fun p => p.1 = k)).map (fun p => p.2)).getD []

/-- The sequence of storage `get` keys performed by `readCrdtFromStorage`
(lines 143-158): for each schema array name, one get of the array key, then
one get per `arrayIndexId` found in the stored object. -/
def readCrdtGets (storage : Storage) : List String :=
  schemaArrayNames.flatMap (fun arrayId => arrayId :: storedKeys storage arrayId)

/-- Per-room initialization state: the three promise-map entries for this
room (`dataClientPromises` / `crdtClientPromises` / `lockClientPromises`,
lines 159-161), a fresh-instance counter, and the log of storage gets. -/
structure RoomInitState where
  dataP : Option Nat
  crdtP : Option Nat
  lockP : Option Nat
  nextId : Nat
  getLog : List String
deriving DecidableEq

def initialRoomInitState : RoomInitState := ⟨none, none, none, 0, []⟩

/-- The promise check-and-create section of `handleSession` (lines 270-308):
for each of the three clients, reuse the room's promise if present, else
create it (recording the storage reads its body performs: the schema-array
reads for the data client, the single `crdt` read for the CRDT client, none
for the lock client).  Returns the three instances this attach observes. -/
def attachInit (storage : Storage) (st : RoomInitState) :
    RoomInitState × (Nat × Nat × Nat) :=
  let s1 := match st.dataP with
    | some i => (st, i)
    | none =>
      (RoomInitState.mk (some st.nextId) st.crdtP st.lockP (st.nextId + 1)
        (st.getLog ++ readCrdtGets storage), st.nextId)
  let s2 := match s1.1.crdtP with
    | some i => (s1.1, i)
    | none =>
      (RoomInitState.mk s1.1.dataP (some s1.1.nextId) s1.1.lockP (s1.1.nextId + 1)
        (s1.1.getLog ++ ["crdt"]), s1.1.nextId)
  let s3 := match s2.1.lockP with
    | some i => (s2.1, i)
    | none =>
      (RoomInitState.mk s2.1.dataP s2.1.crdtP (some s2.1.nextId) (s2.1.nextId + 1)
        s2.1.getLog, s2.1.nextId)
  (s3.1, (s1.2, s2.2, s3.2))

/-- A sequence of `n` attach operations against the same room (the per-room
serial loop makes them sequential through the atomic check-and-create),
collecting the client-instance triple each attach observes. -/
def runAttaches (storage : Storage) : Nat → RoomInitState × List (Nat × Nat × Nat)
  | 0 => (initialRoomInitState, [])
  | n + 1 =>
    let r := runAttaches storage n
    let a := attachInit storage r.1
    (a.1, r.2 ++ [a.2])

/-! ## Dead-hand cleanup (source lines 353-404) -/

/-- The inner loop of the array-scope branch (lines 393-400): for each
`arrayIndexId` of the array, synthesize the map's remove update and proxy
it to peers (a throwing send aborts, as everywhere). -/
def proxyRemoves (sessions : List Session) (self : Session) (arrayId : String) :
    List String → List Event × Bool
  | [] => ([], true)
  | i :: rest =>
    let r1 := proxyMessageToPeers sessions self (Payload.removeUpdate arrayId i)
    if r1.2 then
      let r2 := proxyRemoves sessions self arrayId rest
      (r1.1 ++ r2.1, r2.2)
    else (r1.1, false)

/-- `_triggerDeadHands` (lines 353-404): for each entry of the session's
`deadHands` table, map scope proxies the map's remove update when the array
still contains the key; array scope proxies one remove update per key
currently in the array.  `map.removeUpdate()` only synthesizes a message
(modelled from the spec: the cleanup loop does not mutate the local data
client, whose state `dc` is read-only here). -/
def triggerDeadHands (sessions : List Session) (self : Session)
    (dc : DataClientState) : DeadHands → List Event × Bool
  | [] => ([], true)
  | (_, e) :: rest =>
    let keys := dcKeys dc e.arrayId
    match e.arrayIndexId with
    | some i =>
      if keys.contains i then
        let r1 := proxyMessageToPeers sessions self (Payload.removeUpdate e.arrayId i)
        if r1.2 then
          let r2 := triggerDeadHands sessions self dc rest
          (r1.1 ++ r2.1, r2.2)
        else (r1.1, false)
      else triggerDeadHands sessions self dc rest
    | none =>
      let r1 := proxyRemoves sessions self e.arrayId keys
      if r1.2 then
        let r2 := triggerDeadHands sessions self dc rest
        (r1.1 ++ r2.1, r2.2)
      else (r1.1, false)

/-- The sends the spec's dead-hand cleanup prescribes for one `deadHands`
entry, written from the spec's words for comparison with `triggerDeadHands`:
map scope sends the remove to every peer when the key is still present;
array scope sends one remove per current key to every peer. -/
def removalEvents (sessions : List Session) (self : Session)
    (dc : DataClientState) (e : DeadHandEntry) : List Event :=
  let peers := sessions.filter (fun s => s.id ≠ self.id)
  match e.arrayIndexId with
  | some i =>
    if (dcKeys dc e.arrayId).contains i then
      peers.map (fun s => Event.send s.id (Payload.removeUpdate e.arrayId i))
    else []
  | none =>
    (dcKeys dc e.arrayId).flatMap
      (fun i => peers.map (fun s => Event.send s.id (Payload.removeUpdate e.arrayId i)))

/-! ## The room object's fetch front (source lines 215-251) -/

/-- An HTTP request as `ChatRoom.fetch` inspects it. -/
structure HttpRequest where
  pathname : String
  upgradeHeader : Option String
  playerIdParam : Option String
deriving DecidableEq

/-- An HTTP response (status and body; the 101 upgrade response has none). -/
structure HttpResponse where
  status : Nat
  body : Option String
deriving DecidableEq

/-- The pathname match `^\/([^\/]+?)\/([^\/]+?)$` (line 218): exactly
`/<roomName>/<methodName>` with both segments nonempty and slash-free. -/
def matchRoomPath (s : String) : Option (String × String) :=
  match splitOnChar '/' s with
  | ["", a, b] => if a = "" || b = "" then none else some (a, b)
  | _ => none

/-- In-memory state of a `ChatRoom` durable object that the fetch path can
touch: the session list and the room's lazy-init state. -/
structure RoomObject where
  sessions : List Session
  init : RoomInitState
deriving DecidableEq

/-- `ChatRoom.fetch` (lines 215-251).  On `/<room>/websocket` with a
`websocket` Upgrade header it accepts the pair and runs `handleSession`
(attach detailed by `handleSessionTrace`; here only the state effect is
kept); with any other Upgrade header it returns 400 `expected websocket`;
any other path returns 404. -/
def chatRoomFetch (room : RoomObject) (storage : Storage) (req : HttpRequest) :
    HttpResponse × RoomObject :=
  let parsed := (matchRoomPath req.pathname).getD ("", "")
  if parsed.2 = "websocket" then
    if req.upgradeHeader ≠ some "websocket" then
      (⟨400, some "expected websocket"⟩, room)
    else
      let a := attachInit storage room.init
      let newSession : Session :=
        ⟨room.sessions.length, req.playerIdParam, true, false⟩
      (⟨101, none⟩, ⟨room.sessions ++ [newSession], a.1⟩)
  else (⟨404, some "Not found"⟩, room)

/-! ## Trace observations -/

/-- Extract the message of a `dispatch` event. -/
def dispatchedMsg : Event → Option Msg
  | Event.dispatch m => some m
  | _ => none

/-- The messages dispatched through the steady-state handler in a trace, in
order. -/
def dispatchedOf (t : List Event) : List Msg :=
  t.filterMap dispatchedMsg

/-- The skeleton of the resume loop: the sequence of messages it dispatches
(`replaySteps` with the handler output erased). -/
def replayMsgs : Nat → List Msg → Nat → List Msg
  | 0, _, _ => []
  | fuel + 1, queue, idx =>
    if h : idx < queue.length then
      let m := queue.get ⟨idx, h⟩
      m :: replayMsgs fuel (queue ++ [m]) (idx + 1)
    else []

/-- Join-related events: the local join emission and any join-frame send. -/
def isJoinEvent : Event → Bool
  | Event.emitJoin _ => true
  | Event.send _ (Payload.joinMsg _) => true
  | _ => false

/-! ## Helper lemmas -/

/-- `respondToSelf` delivers to the originator exactly when its socket
accepts the send. -/
theorem respond_eq (self : Session) (m : Payload) :
    respondToSelf self m =
      (if self.sendOk then [Event.send self.id m] else [], self.sendOk) := by
  unfold respondToSelf
  cases h : self.sendOk <;> simp [h]

/-- Characterization of `proxyMessageToPeers`: it attempts the peers
(`s.id ≠ self.id`) in list order, delivering until the first failing socket,
which aborts the loop; the flag records whether every peer send succeeded. -/
theorem proxy_eq : ∀ (sessions : List Session) (self : Session) (m : Payload),
    proxyMessageToPeers sessions self m =
      (((sessions.filter (fun s => s.id ≠ self.id)).takeWhile
          (fun s => s.sendOk)).map (fun s => Event.send s.id m),
       (sessions.filter (fun s => s.id ≠ self.id)).all (fun s => s.sendOk))
  | [], self, m => by simp [proxyMessageToPeers]
  | s :: rest, self, m => by
    by_cases hid : s.id = self.id
    · rw [proxyMessageToPeers, if_neg (by simp [hid]), proxy_eq rest self m]
      simp [List.filter_cons, hid]
    · by_cases hok : s.sendOk
      · rw [proxyMessageToPeers, if_pos (by simpa using hid), if_pos hok,
          proxy_eq rest self m]
        simp [List.filter_cons, hid, hok]
      · rw [proxyMessageToPeers, if_pos (by simpa using hid), if_neg hok]
        simp only [Bool.not_eq_true] at hok
        simp [List.filter_cons, hid, hok]

/-- Characterization of `reflectMessageToPeers`: every session including the
originator, in list order, until the first failing socket. -/
theorem reflect_eq : ∀ (sessions : List Session) (m : Payload),
    reflectMessageToPeers sessions m =
      ((sessions.takeWhile (fun s => s.sendOk)).map (fun s => Event.send s.id m),
       sessions.all (fun s => s.sendOk))
  | [], m => by simp [reflectMessageToPeers]
  | s :: rest, m => by
    by_cases hok : s.sendOk
    · rw [reflectMessageToPeers, if_pos hok, reflect_eq rest m]
      simp [hok]
    · rw [reflectMessageToPeers, if_neg hok]
      simp only [Bool.not_eq_true] at hok
      simp [hok]

/-- With every socket accepting sends, `proxyMessageToPeers` delivers to
exactly the peers, in order. -/
theorem proxy_all_ok {sessions : List Session} (self : Session) (m : Payload)
    (h : ∀ s ∈ sessions, s.sendOk = true) :
    proxyMessageToPeers sessions self m =
      ((sessions.filter (fun s => s.id ≠ self.id)).map
         (fun s => Event.send s.id m), true) := by
  rw [proxy_eq]
  have hf : ∀ s ∈ sessions.filter (fun s => s.id ≠ self.id), s.sendOk = true :=
    fun s hs => h s (List.mem_of_mem_filter hs)
  rw [List.takeWhile_eq_self_iff.mpr hf, List.all_eq_true.mpr hf]

/-- With every socket accepting sends, `reflectMessageToPeers` delivers to
every session, in order. -/
theorem reflect_all_ok {sessions : List Session} (m : Payload)
    (h : ∀ s ∈ sessions, s.sendOk = true) :
    reflectMessageToPeers sessions m =
      (sessions.map (fun s => Event.send s.id m), true) := by
  rw [reflect_eq, List.takeWhile_eq_self_iff.mpr h, List.all_eq_true.mpr h]

/-- Every event produced by `proxyMessageToPeers` is a send of the given
payload to some listed session other than the originator. -/
theorem mem_proxy {sessions : List Session} {self : Session} {m : Payload}
    {e : Event} (he : e ∈ (proxyMessageToPeers sessions self m).1) :
    ∃ s, s ∈ sessions ∧ s.id ≠ self.id ∧ e = Event.send s.id m := by
  rw [proxy_eq] at he
  rcases List.mem_map.mp he with ⟨s, hs, rfl⟩
  have hmem := (List.takeWhile_prefix _).sublist.subset hs
  have hs' := List.mem_of_mem_filter hmem
  have hne : s.id ≠ self.id := by
    have := List.mem_filter.mp hmem
    simpa using this.2
  exact ⟨s, hs', hne, rfl⟩

/-- Every event produced by `reflectMessageToPeers` is a send of the given
payload to some listed session. -/
theorem mem_reflect {sessions : List Session} {m : Payload}
    {e : Event} (he : e ∈ (reflectMessageToPeers sessions m).1) :
    ∃ s, s ∈ sessions ∧ e = Event.send s.id m := by
  rw [reflect_eq] at he
  rcases List.mem_map.mp he with ⟨s, hs, rfl⟩
  exact ⟨s, (List.takeWhile_prefix _).sublist.subset hs, rfl⟩

/-- Every event produced by `respondToSelf` is a send of the given payload to
the originator. -/
theorem mem_respond {self : Session} {m : Payload} {e : Event}
    (he : e ∈ (respondToSelf self m).1) : e = Event.send self.id m := by
  rw [respond_eq] at he
  by_cases h : self.sendOk <;> simp [h] at he
  exact he

/-- The data, document-CRDT, lock, IRC, audio and video method sets are
pairwise disjoint (spec: disjoint numeric ranges / disjoint handshake tags). -/
theorem data_only {m : Nat} (h : dataHandlesMethod m = true) :
    crdtHandlesMethod m = false ∧ lockHandlesMethod m = false ∧
      ircHandlesMethod m = false ∧ audioHandlesMethod m = false ∧
      videoHandlesMethod m = false := by
  simp only [dataHandlesMethod, crdtHandlesMethod, lockHandlesMethod,
    ircHandlesMethod, audioHandlesMethod, videoHandlesMethod,
    Bool.and_eq_true, decide_eq_true_eq, Bool.and_eq_false_iff,
    decide_eq_false_iff_not, not_le] at h ⊢
  omega

/-- An IRC-class method is in no other class. -/
theorem irc_only {m : Nat} (h : ircHandlesMethod m = true) :
    dataHandlesMethod m = false ∧ crdtHandlesMethod m = false ∧
      lockHandlesMethod m = false ∧ audioHandlesMethod m = false ∧
      videoHandlesMethod m = false := by
  simp only [dataHandlesMethod, crdtHandlesMethod, lockHandlesMethod,
    ircHandlesMethod, audioHandlesMethod, videoHandlesMethod,
    Bool.and_eq_true, decide_eq_true_eq, Bool.and_eq_false_iff,
    decide_eq_false_iff_not, not_le] at h ⊢
  omega

/-- An audio- or video-class method is in no other class. -/
theorem av_only {m : Nat} (h : audioHandlesMethod m = true ∨ videoHandlesMethod m = true) :
    dataHandlesMethod m = false ∧ crdtHandlesMethod m = false ∧
      lockHandlesMethod m = false ∧ ircHandlesMethod m = false := by
  simp only [dataHandlesMethod, crdtHandlesMethod, lockHandlesMethod,
    ircHandlesMethod, audioHandlesMethod, videoHandlesMethod,
    Bool.and_eq_true, decide_eq_true_eq, Bool.and_eq_false_iff,
    decide_eq_false_iff_not, not_le] at h ⊢
  omega

/-- A method-class block that does not recognize the method leaves the
accumulated dispatch state untouched. -/
theorem hbThen_noop
    (blk : DataClientState → DeadHands → List Event × Bool × DataClientState × DeadHands)
    {r : HBState}
    (hblk : ∀ dc dh, blk dc dh = ([], true, dc, dh)) : hbThen r blk = r := by
  rcases r with ⟨es, ok, dc, dh⟩
  unfold hbThen
  cases ok <;> simp [hblk]

/-- Computation of `handleBinaryMessage` on a data-class frame when the
originator's socket works, every peer send succeeds and the local emission
does not throw: rollback (if any) to the originator, then the local emission
and the proxy of the original bytes (if an update is present). -/
theorem hbm_data_eq {sessions : List Session} {self : Session}
    {dc : DataClientState} {dh : DeadHands} {f : Frame}
    (hd : dataHandlesMethod f.method = true)
    (hself : self.sendOk = true)
    (hemit : f.hasUpdate = true → (emitFrameUpdate self.playerId dh f).2 = true)
    (hok : ∀ s ∈ sessions, s.sendOk = true) :
    handleBinaryMessage sessions self dc dh f =
      ⟨(if f.hasRollback then [Event.send self.id (Payload.rollback f)] else []) ++
        (if f.hasUpdate then
          Event.emitUpd f ::
            (sessions.filter (fun s => s.id ≠ self.id)).map
              (fun s => Event.send s.id (Payload.original f))
         else []),
       true, dc,
       if f.hasUpdate then (emitFrameUpdate self.playerId dh f).1 else dh⟩ := by
  obtain ⟨hc, hl, hi, ha, hv⟩ := data_only hd
  unfold handleBinaryMessage
  rw [hbThen_noop (avBlock sessions self f) (fun dc dh => by simp [avBlock, ha, hv]),
      hbThen_noop (ircBlock sessions f) (fun dc dh => by simp [ircBlock, hi]),
      hbThen_noop (lockBlock f) (fun dc dh => by simp [lockBlock]),
      hbThen_noop (crdtBlock sessions self f) (fun dc dh => by simp [crdtBlock, hc])]
  cases hu : f.hasUpdate
  · cases hr : f.hasRollback <;>
      simp [hbThen, dataBlock, hd, hr, hu, respondToSelf, hself]
  · have he := hemit hu
    cases hr : f.hasRollback <;>
      simp [hbThen, dataBlock, hd, hr, hu, respondToSelf, hself, he,
        proxy_all_ok self (Payload.original f) hok]

/-- Computation of `handleBinaryMessage` on a data-class frame whose local
emission throws (a malformed dead-hand key): the rollback (if any) and the
emission marker have happened, no peer receives anything, and the exception
propagates (ok = false). -/
theorem hbm_data_emit_fail {sessions : List Session} {self : Session}
    {dc : DataClientState} {dh : DeadHands} {f : Frame}
    (hd : dataHandlesMethod f.method = true)
    (hself : self.sendOk = true)
    (hu : f.hasUpdate = true)
    (hemit : (emitFrameUpdate self.playerId dh f).2 = false) :
    handleBinaryMessage sessions self dc dh f =
      ⟨(if f.hasRollback then [Event.send self.id (Payload.rollback f)] else []) ++
        [Event.emitUpd f],
       false, dc, (emitFrameUpdate self.playerId dh f).1⟩ := by
  obtain ⟨hc, hl, hi, ha, hv⟩ := data_only hd
  unfold handleBinaryMessage
  rw [hbThen_noop (avBlock sessions self f) (fun dc dh => by simp [avBlock, ha, hv]),
      hbThen_noop (ircBlock sessions f) (fun dc dh => by simp [ircBlock, hi]),
      hbThen_noop (lockBlock f) (fun dc dh => by simp [lockBlock]),
      hbThen_noop (crdtBlock sessions self f) (fun dc dh => by simp [crdtBlock, hc])]
  cases hr : f.hasRollback <;>
    simp [hbThen, dataBlock, hd, hr, hu, respondToSelf, hself, hemit]

/-- Computation of `handleBinaryMessage` on an IRC-class frame with working
sockets: the original bytes are reflected to every session. -/
theorem hbm_irc_eq {sessions : List Session} {self : Session}
    {dc : DataClientState} {dh : DeadHands} {f : Frame}
    (hi : ircHandlesMethod f.method = true)
    (hok : ∀ s ∈ sessions, s.sendOk = true) :
    handleBinaryMessage sessions self dc dh f =
      ⟨sessions.map (fun s => Event.send s.id (Payload.original f)), true, dc, dh⟩ := by
  obtain ⟨hd, hc, hl, ha, hv⟩ := irc_only hi
  unfold handleBinaryMessage
  rw [hbThen_noop (avBlock sessions self f) (fun dc dh => by simp [avBlock, ha, hv]),
      hbThen_noop (lockBlock f) (fun dc dh => by simp [lockBlock]),
      hbThen_noop (crdtBlock sessions self f) (fun dc dh => by simp [crdtBlock, hc]),
      hbThen_noop (dataBlock sessions self f) (fun dc dh => by simp [dataBlock, hd])]
  simp [hbThen, ircBlock, hi, reflect_all_ok (Payload.original f) hok]

/-- Computation of `handleBinaryMessage` on an audio- or video-class frame
with working sockets: the original bytes are proxied to the peers. -/
theorem hbm_av_eq {sessions : List Session} {self : Session}
    {dc : DataClientState} {dh : DeadHands} {f : Frame}
    (hav : audioHandlesMethod f.method = true ∨ videoHandlesMethod f.method = true)
    (hok : ∀ s ∈ sessions, s.sendOk = true) :
    handleBinaryMessage sessions self dc dh f =
      ⟨(sessions.filter (fun s => s.id ≠ self.id)).map
          (fun s => Event.send s.id (Payload.original f)), true, dc, dh⟩ := by
  obtain ⟨hd, hc, hl, hi⟩ := av_only hav
  unfold handleBinaryMessage
  rw [hbThen_noop (ircBlock sessions f) (fun dc dh => by simp [ircBlock, hi]),
      hbThen_noop (lockBlock f) (fun dc dh => by simp [lockBlock]),
      hbThen_noop (crdtBlock sessions self f) (fun dc dh => by simp [crdtBlock, hc]),
      hbThen_noop (dataBlock sessions self f) (fun dc dh => by simp [dataBlock, hd])]
  have hcond : (audioHandlesMethod f.method || videoHandlesMethod f.method) = true := by
    rcases hav with h | h <;> simp [h]
  simp [hbThen, avBlock, hcond, proxy_all_ok self (Payload.original f) hok]

/-- Events accumulated by a sequencing step come either from the previous
blocks or from the new block (run on the previous block's state). -/
theorem mem_hbThen {r : HBState}
    {blk : DataClientState → DeadHands → List Event × Bool × DataClientState × DeadHands}
    {e : Event} (he : e ∈ (hbThen r blk).events) :
    e ∈ r.events ∨ e ∈ (blk r.dc r.dh).1 := by
  unfold hbThen at he
  by_cases hok : r.ok = true
  · rw [if_pos hok] at he
    rcases hblk : blk r.dc r.dh with ⟨es2, ok2, dc2, dh2⟩
    rw [hblk] at he
    have he' : e ∈ r.events ++ es2 := he
    rcases List.mem_append.mp he' with h | h
    · exact Or.inl h
    · exact Or.inr h
  · rw [if_neg hok] at he
    exact Or.inl he

/-- The rollback part of the data block only ever sends the rollback to the
originator. -/
theorem mem_rollback_part {self : Session} {f : Frame} {e : Event}
    (he : e ∈ (if f.hasRollback then respondToSelf self (Payload.rollback f)
        else (([] : List Event), true)).1) :
    e = Event.send self.id (Payload.rollback f) := by
  by_cases hr : f.hasRollback = true
  · rw [if_pos hr] at he
    exact mem_respond he
  · simp [hr] at he

/-- Shape of the events of the data-client block: the emission marker, a
rollback send, or an original-bytes send. -/
theorem mem_dataBlock {sessions : List Session} {self : Session} {f : Frame}
    {dc : DataClientState} {dh : DeadHands} {e : Event}
    (he : e ∈ (dataBlock sessions self f dc dh).1) :
    e = Event.emitUpd f ∨ (∃ t, e = Event.send t (Payload.rollback f)) ∨
      ∃ t, e = Event.send t (Payload.original f) := by
  by_cases hd : dataHandlesMethod f.method = true
  swap
  · simp [dataBlock, hd] at he
  by_cases hu : f.hasUpdate = true <;>
  by_cases h1 : (if f.hasRollback then respondToSelf self (Payload.rollback f)
      else (([] : List Event), true)).2 = true <;>
  by_cases h2 : (emitFrameUpdate self.playerId dh f).2 = true <;>
  simp only [dataBlock, hd, if_true, hu, h1, h2, Bool.not_eq_true,
    eq_self_iff_true, if_false, List.mem_append, List.mem_cons,
    List.not_mem_nil, or_false, false_or, Bool.false_eq_true] at he <;>
  [skip; skip; skip; skip; exact Or.inr (Or.inl ⟨self.id, mem_rollback_part he⟩);
   exact Or.inr (Or.inl ⟨self.id, mem_rollback_part he⟩);
   exact Or.inr (Or.inl ⟨self.id, mem_rollback_part he⟩);
   exact Or.inr (Or.inl ⟨self.id, mem_rollback_part he⟩)] <;>
  [rcases he with he | he | he; rcases he with he | he; skip; skip] <;>
  first
  | exact Or.inl he
  | exact Or.inr (Or.inl ⟨self.id, mem_rollback_part he⟩)
  | (rcases mem_proxy he with ⟨s, _, _, rfl⟩
     exact Or.inr (Or.inr ⟨s.id, rfl⟩))

/-- Shape of the events of the CRDT block: original-bytes sends. -/
theorem mem_crdtBlock {sessions : List Session} {self : Session} {f : Frame}
    {dc : DataClientState} {dh : DeadHands} {e : Event}
    (he : e ∈ (crdtBlock sessions self f dc dh).1) :
    ∃ t, e = Event.send t (Payload.original f) := by
  by_cases hc : crdtHandlesMethod f.method = true
  · unfold crdtBlock at he
    rw [if_pos hc] at he
    rcases mem_proxy he with ⟨s, _, _, rfl⟩
    exact ⟨s.id, rfl⟩
  · simp [crdtBlock, hc] at he

/-- Shape of the events of the lock block: none. -/
theorem mem_lockBlock {f : Frame} {dc : DataClientState} {dh : DeadHands}
    {e : Event} (he : e ∈ (lockBlock f dc dh).1) : False := by
  simp [lockBlock] at he

/-- Shape of the events of the IRC block: original-bytes sends. -/
theorem mem_ircBlock {sessions : List Session} {f : Frame}
    {dc : DataClientState} {dh : DeadHands} {e : Event}
    (he : e ∈ (ircBlock sessions f dc dh).1) :
    ∃ t, e = Event.send t (Payload.original f) := by
  by_cases hi : ircHandlesMethod f.method = true
  · unfold ircBlock at he
    rw [if_pos hi] at he
    rcases mem_reflect he with ⟨s, _, rfl⟩
    exact ⟨s.id, rfl⟩
  · simp [ircBlock, hi] at he

/-- Shape of the events of the audio/video block: original-bytes sends. -/
theorem mem_avBlock {sessions : List Session} {self : Session} {f : Frame}
    {dc : DataClientState} {dh : DeadHands} {e : Event}
    (he : e ∈ (avBlock sessions self f dc dh).1) :
    ∃ t, e = Event.send t (Payload.original f) := by
  by_cases hav : (audioHandlesMethod f.method || videoHandlesMethod f.method) = true
  · unfold avBlock at he
    rw [if_pos hav] at he
    rcases mem_proxy he with ⟨s, _, _, rfl⟩
    exact ⟨s.id, rfl⟩
  · simp [avBlock, hav] at he

/-- Every event of `handleBinaryMessage` is the emission marker, a rollback
send or an original-bytes send for the processed frame. -/
theorem mem_hbm_events {sessions : List Session} {self : Session}
    {dc : DataClientState} {dh : DeadHands} {f : Frame} {e : Event}
    (he : e ∈ (handleBinaryMessage sessions self dc dh f).events) :
    e = Event.emitUpd f ∨ (∃ t, e = Event.send t (Payload.rollback f)) ∨
      ∃ t, e = Event.send t (Payload.original f) := by
  unfold handleBinaryMessage at he
  rcases mem_hbThen he with h | h
  swap
  · exact Or.inr (Or.inr (mem_avBlock h))
  rcases mem_hbThen h with h | h
  swap
  · exact Or.inr (Or.inr (mem_ircBlock h))
  rcases mem_hbThen h with h | h
  swap
  · exact absurd h (fun hx => mem_lockBlock hx)
  rcases mem_hbThen h with h | h
  swap
  · exact Or.inr (Or.inr (mem_crdtBlock h))
  rcases mem_hbThen h with h | h
  · simp [HBState.events] at h
  · exact mem_dataBlock h

/-- Every event of the steady-state message listener is a send (of an error
frame, the original bytes, or a rollback) or the local emission marker; in
particular it is never a `dispatch`, `pushSession`, `emitJoin` or any
join-payload send. -/
theorem mem_onMessage_events {sessions : List Session} {self : Session}
    {dc : DataClientState} {dh : DeadHands} {m : Msg} {e : Event}
    (he : e ∈ (onMessage sessions self dc dh m).1) :
    (∃ t, e = Event.send t Payload.errorJson) ∨
      (∃ t f, e = Event.send t (Payload.rollback f)) ∨
      (∃ t f, e = Event.send t (Payload.original f)) ∨
      ∃ f, e = Event.emitUpd f := by
  unfold onMessage at he
  by_cases hq : self.quit = true
  · rw [if_pos hq] at he
    simp at he
  rw [if_neg hq] at he
  rcases m with f | s
  all_goals dsimp only at he
  · by_cases hok : (handleBinaryMessage sessions self dc dh f).ok = true
    · rw [if_pos hok] at he
      rcases mem_hbm_events he with h | ⟨t, h⟩ | ⟨t, h⟩
      · exact Or.inr (Or.inr (Or.inr ⟨f, h⟩))
      · exact Or.inr (Or.inl ⟨t, f, h⟩)
      · exact Or.inr (Or.inr (Or.inl ⟨t, f, h⟩))
    · rw [if_neg hok] at he
      rcases List.mem_append.mp he with h | h
      · rcases mem_hbm_events h with h | ⟨t, h⟩ | ⟨t, h⟩
        · exact Or.inr (Or.inr (Or.inr ⟨f, h⟩))
        · exact Or.inr (Or.inl ⟨t, f, h⟩)
        · exact Or.inr (Or.inr (Or.inl ⟨t, f, h⟩))
      · exact Or.inl ⟨self.id, mem_respond h⟩
  · exact Or.inl ⟨self.id, mem_respond he⟩

/-- The steady-state handler emits no `dispatch` events of its own. -/
theorem onMessage_no_dispatch (sessions : List Session) (self : Session)
    (dc : DataClientState) (dh : DeadHands) (m : Msg) :
    dispatchedOf (onMessage sessions self dc dh m).1 = [] := by
  rw [dispatchedOf, List.filterMap_eq_nil_iff]
  intro e he
  rcases mem_onMessage_events he with ⟨t, rfl⟩ | ⟨t, f, rfl⟩ | ⟨t, f, rfl⟩ | ⟨f, rfl⟩ <;> rfl

/-- The messages dispatched by the resume loop are exactly the skeleton
sequence `replayMsgs`, independently of the handler state. -/
theorem dispatchedOf_replaySteps (sessions : List Session) (self : Session) :
    ∀ (fuel : Nat) (queue : List Msg) (idx : Nat)
      (dc : DataClientState) (dh : DeadHands),
      dispatchedOf (replaySteps sessions self fuel queue idx dc dh) =
        replayMsgs fuel queue idx
  | 0, _, _, _, _ => rfl
  | fuel + 1, queue, idx, dc, dh => by
    unfold replaySteps replayMsgs
    by_cases h : idx < queue.length
    · rw [dif_pos h, dif_pos h]
      simp only [dispatchedOf, List.filterMap_cons, List.filterMap_append]
      rw [show dispatchedMsg (Event.dispatch (queue.get ⟨idx, h⟩)) =
            some (queue.get ⟨idx, h⟩) from rfl]
      have h1 := onMessage_no_dispatch sessions self dc dh (queue.get ⟨idx, h⟩)
      rw [dispatchedOf] at h1
      rw [h1]
      have h2 := dispatchedOf_replaySteps sessions self fuel (queue ++ [queue.get ⟨idx, h⟩])
        (idx + 1) (onMessage sessions self dc dh (queue.get ⟨idx, h⟩)).2.2.1
        (onMessage sessions self dc dh (queue.get ⟨idx, h⟩)).2.2.2
      rw [dispatchedOf] at h2
      rw [h2]
      simp
    · rw [dif_neg h, dif_neg h]
      rfl

/-- Every message the resume loop dispatches was in the initial queue (the
re-appended copies add nothing new). -/
theorem mem_replayMsgs {S : List Msg} :
    ∀ {fuel : Nat} {queue : List Msg} {idx : Nat},
      (∀ x ∈ queue, x ∈ S) → ∀ m ∈ replayMsgs fuel queue idx, m ∈ S := by
  intro fuel
  induction fuel with
  | zero => intro queue idx _ m hm; simp [replayMsgs] at hm
  | succ fuel ih =>
    intro queue idx hq m hm
    unfold replayMsgs at hm
    by_cases h : idx < queue.length
    · rw [dif_pos h] at hm
      rcases List.mem_cons.mp hm with rfl | hm
      · exact hq _ (queue.get_mem _ _)
      · refine ih ?_ m hm
        intro x hx
        rcases List.mem_append.mp hx with hx | hx
        · exact hq x hx
        · rcases List.mem_singleton.mp hx with rfl
          exact hq _ (queue.get_mem _ _)
    · rw [dif_neg h] at hm
      simp at hm

/-- As long as the fuel and the queue length allow, the resume loop
dispatches the pending suffix of the queue in order (before any re-appended
copy comes up). -/
theorem replayMsgs_take :
    ∀ (fuel : Nat) (queue : List Msg) (idx k : Nat),
      idx + k ≤ queue.length → k ≤ fuel →
      (replayMsgs fuel queue idx).take k = (queue.drop idx).take k
  | fuel, queue, idx, 0, _, _ => by simp
  | fuel + 1, queue, idx, k + 1, hlen, hfuel => by
    have h : idx < queue.length := by omega
    unfold replayMsgs
    rw [dif_pos h]
    have hrec := replayMsgs_take fuel (queue ++ [queue.get ⟨idx, h⟩]) (idx + 1) k
      (by simp; omega) (by omega)
    rw [List.drop_append_of_le_length (by omega)] at hrec
    rw [List.take_append_of_le_length (by simp [List.length_drop]; omega)] at hrec
    rw [List.drop_eq_getElem_cons h]
    simp only [List.take_succ_cons]
    rw [hrec]
    simp [List.get_eq_getElem]

/-- Shape of the events of the resume loop: dispatch markers and
steady-state handler output. -/
theorem mem_replaySteps {sessions : List Session} {self : Session} :
    ∀ {fuel : Nat} {queue : List Msg} {idx : Nat} {dc : DataClientState}
      {dh : DeadHands} {e : Event},
      e ∈ replaySteps sessions self fuel queue idx dc dh →
      (∃ m, e = Event.dispatch m) ∨
        ∃ dc' dh' m, e ∈ (onMessage sessions self dc' dh' m).1 := by
  intro fuel
  induction fuel with
  | zero => intro _ _ _ _ e he; simp [replaySteps] at he
  | succ fuel ih =>
    intro queue idx dc dh e he
    unfold replaySteps at he
    by_cases h : idx < queue.length
    · rw [dif_pos h] at he
      rcases List.mem_cons.mp he with rfl | he
      · exact Or.inl ⟨_, rfl⟩
      rcases List.mem_append.mp he with he | he
      · exact Or.inr ⟨dc, dh, queue.get ⟨idx, h⟩, he⟩
      · exact ih he
    · rw [dif_neg h] at he
      simp at he

/-- Unfolding of the attach trace when the new session's socket accepts the
three snapshot sends. -/
theorem handleSessionTrace_ok {existing : List Session} {self : Session}
    {arrivals : List Msg} {dc : DataClientState} {fuel : Nat}
    (hself : self.sendOk = true) :
    handleSessionTrace existing self arrivals dc fuel =
      Event.pushSession ::
      Event.send self.id Payload.importSnapshot ::
      Event.send self.id Payload.crdtSnapshot ::
      Event.send self.id (Payload.networkInit
        ((existing ++ [self]).filterMap (fun s => s.playerId))) ::
      (if (sendJoinMessage (existing ++ [self]) self self.playerId).2 then
        (sendJoinMessage (existing ++ [self]) self self.playerId).1 ++
          replaySteps (existing ++ [self]) self fuel arrivals 0 dc []
       else (sendJoinMessage (existing ++ [self]) self self.playerId).1) := by
  simp only [handleSessionTrace, hself, if_true]

/-- Under working sockets the join message does not throw. -/
theorem sendJoin_all_ok {sessions : List Session} {self : Session}
    {pid : Option String} (hok : ∀ s ∈ sessions, s.sendOk = true) :
    (sendJoinMessage sessions self pid).2 = true := by
  rcases pid with _ | p
  · rfl
  · unfold sendJoinMessage
    dsimp only
    by_cases hp : p = ""
    · simp [hp]
    · rw [if_pos hp, proxy_all_ok self (Payload.joinMsg p) hok]

/-- Shape of the events of the join message: the local emission marker and
join-frame sends. -/
theorem mem_sendJoin {sessions : List Session} {self : Session}
    {pid : Option String} {e : Event}
    (he : e ∈ (sendJoinMessage sessions self pid).1) :
    (∃ p, e = Event.emitJoin p) ∨ ∃ t p, e = Event.send t (Payload.joinMsg p) := by
  rcases pid with _ | p
  · simp [sendJoinMessage] at he
  · unfold sendJoinMessage at he
    dsimp only at he
    by_cases hp : p = ""
    · simp [hp] at he
    · rw [if_pos hp] at he
      dsimp only at he
      rcases List.mem_cons.mp he with rfl | he
      · exact Or.inl ⟨p, rfl⟩
      · rcases mem_proxy he with ⟨s, _, _, rfl⟩
        exact Or.inr ⟨s.id, p, rfl⟩

/-- The join message dispatches nothing. -/
theorem sendJoin_no_dispatch (sessions : List Session) (self : Session)
    (pid : Option String) :
    dispatchedOf (sendJoinMessage sessions self pid).1 = [] := by
  rw [dispatchedOf, List.filterMap_eq_nil_iff]
  intro e he
  rcases mem_sendJoin he with ⟨p, rfl⟩ | ⟨t, p, rfl⟩ <;> rfl

/-- The messages an attach trace dispatches are exactly the replay-loop
skeleton over the buffered arrivals. -/
theorem dispatchedOf_trace {existing : List Session} {self : Session}
    {arrivals : List Msg} {dc : DataClientState} {fuel : Nat}
    (hself : self.sendOk = true)
    (hok : ∀ s ∈ existing ++ [self], s.sendOk = true) :
    dispatchedOf (handleSessionTrace existing self arrivals dc fuel) =
      replayMsgs fuel arrivals 0 := by
  rw [handleSessionTrace_ok hself, if_pos (sendJoin_all_ok hok)]
  simp only [dispatchedOf, List.filterMap_cons, List.filterMap_append]
  have h1 := sendJoin_no_dispatch (existing ++ [self]) self self.playerId
  rw [dispatchedOf] at h1
  have h2 := dispatchedOf_replaySteps (existing ++ [self]) self fuel arrivals 0 dc []
  rw [dispatchedOf] at h2
  simp [dispatchedMsg, h1, h2]

/-- The resume loop produces no join-related events. -/
theorem replaySteps_no_join {sessions : List Session} {self : Session}
    {fuel : Nat} {queue : List Msg} {idx : Nat} {dc : DataClientState}
    {dh : DeadHands} :
    (replaySteps sessions self fuel queue idx dc dh).filter isJoinEvent = [] := by
  rw [List.filter_eq_nil_iff]
  intro e he
  rcases mem_replaySteps he with ⟨m, rfl⟩ | ⟨dc', dh', m, he'⟩
  · simp [isJoinEvent]
  · rcases mem_onMessage_events he' with ⟨t, rfl⟩ | ⟨t, f, rfl⟩ | ⟨t, f, rfl⟩ | ⟨f, rfl⟩ <;>
      simp [isJoinEvent]

/-! ## Claims -/

/-- Claim C1 (confirmed): for every session attached to a room, every
inbound frame that arrives between transport acceptance and the end of the
attach sequence is buffered and replayed through the steady-state dispatcher
only after the three snapshot messages (data-client import, document-CRDT
initial update, network-init) have been sent to that session.  Formally: in
the attach trace, positions 1-3 are the three snapshot sends; every
`dispatch` event lies strictly after them; only buffered arrivals are
dispatched; and with enough fuel the first dispatches are exactly the
buffered arrivals in order. -/
theorem c1_buffered_frames_replayed_after_snapshots
    (existing : List Session) (self : Session) (arrivals : List Msg)
    (dc : DataClientState) (fuel : Nat)
    (hok : ∀ s ∈ existing ++ [self], s.sendOk = true) :
    ((handleSessionTrace existing self arrivals dc fuel).get? 1 =
        some (Event.send self.id Payload.importSnapshot) ∧
      (handleSessionTrace existing self arrivals dc fuel).get? 2 =
        some (Event.send self.id Payload.crdtSnapshot) ∧
      (handleSessionTrace existing self arrivals dc fuel).get? 3 =
        some (Event.send self.id (Payload.networkInit
          ((existing ++ [self]).filterMap (fun s => s.playerId))))) ∧
    (∀ i m, (handleSessionTrace existing self arrivals dc fuel).get? i =
        some (Event.dispatch m) → 3 < i) ∧
    (∀ m, Event.dispatch m ∈ handleSessionTrace existing self arrivals dc fuel →
        m ∈ arrivals) ∧
    (arrivals.length ≤ fuel →
      (dispatchedOf (handleSessionTrace existing self arrivals dc fuel)).take
          arrivals.length = arrivals) := by
  have hself : self.sendOk = true := hok self (by simp)
  refine ⟨⟨?_, ?_, ?_⟩, ?_, ?_, ?_⟩
  · rw [handleSessionTrace_ok hself]
    rfl
  · rw [handleSessionTrace_ok hself]
    rfl
  · rw [handleSessionTrace_ok hself]
    rfl
  · intro i m hi
    match i with
    | 0 =>
      rw [handleSessionTrace_ok hself] at hi
      simp at hi
    | 1 =>
      rw [handleSessionTrace_ok hself] at hi
      simp at hi
    | 2 =>
      rw [handleSessionTrace_ok hself] at hi
      simp at hi
    | 3 =>
      rw [handleSessionTrace_ok hself] at hi
      simp at hi
    | n + 4 => omega
  · intro m hm
    have hmem : m ∈ dispatchedOf (handleSessionTrace existing self arrivals dc fuel) :=
      List.mem_filterMap.mpr ⟨Event.dispatch m, hm, rfl⟩
    rw [dispatchedOf_trace hself hok] at hmem
    exact mem_replayMsgs (fun x hx => hx) m hmem
  · intro hfuel
    rw [dispatchedOf_trace hself hok,
      replayMsgs_take fuel arrivals 0 arrivals.length (by omega) hfuel]
    simp

/-- Witness for C1 at a concrete input: one existing session, a buffered
text frame, fuel 1. -/
theorem c1_witness :
    ((handleSessionTrace [⟨1, some "b", true, false⟩] ⟨0, some "a", true, false⟩
        [Msg.text "x"] [] 1).get? 1 =
        some (Event.send 0 Payload.importSnapshot) ∧
      (handleSessionTrace [⟨1, some "b", true, false⟩] ⟨0, some "a", true, false⟩
        [Msg.text "x"] [] 1).get? 2 =
        some (Event.send 0 Payload.crdtSnapshot) ∧
      (handleSessionTrace [⟨1, some "b", true, false⟩] ⟨0, some "a", true, false⟩
        [Msg.text "x"] [] 1).get? 3 =
        some (Event.send 0 (Payload.networkInit
          ((([⟨1, some "b", true, false⟩] ++
            [⟨0, some "a", true, false⟩] : List Session)).filterMap
            (fun s => s.playerId))))) ∧
    (∀ i m, (handleSessionTrace [⟨1, some "b", true, false⟩] ⟨0, some "a", true, false⟩
        [Msg.text "x"] [] 1).get? i = some (Event.dispatch m) → 3 < i) ∧
    (∀ m, Event.dispatch m ∈ handleSessionTrace [⟨1, some "b", true, false⟩]
        ⟨0, some "a", true, false⟩ [Msg.text "x"] [] 1 → m ∈ [Msg.text "x"]) ∧
    ((Msg.text "x" :: []).length ≤ 1 →
      (dispatchedOf (handleSessionTrace [⟨1, some "b", true, false⟩]
        ⟨0, some "a", true, false⟩ [Msg.text "x"] [] 1)).take
          (Msg.text "x" :: []).length = [Msg.text "x"]) :=
  c1_buffered_frames_replayed_after_snapshots
    [⟨1, some "b", true, false⟩] ⟨0, some "a", true, false⟩
    [Msg.text "x"] [] 1 (by decide)

/-- Claim C2 counterexample: in the source, `this.sessions.push(session)`
(line 341) precedes the three snapshot sends (lines 344-348), so the attach
trace starts with the append; and since `getNetworkInitMessage` reads
`this.sessions` after the push, the network-init frame of a session with
`playerId = "a"` joining an empty room is `networkInit ["a"]` — it lists the
session's own playerId, contradicting the claim. -/
theorem c2_counterexample :
    (handleSessionTrace [] ⟨0, some "a", true, false⟩ [] [] 0).get? 0 =
        some Event.pushSession ∧
    (handleSessionTrace [] ⟨0, some "a", true, false⟩ [] [] 0).get? 1 =
        some (Event.send 0 Payload.importSnapshot) ∧
    (handleSessionTrace [] ⟨0, some "a", true, false⟩ [] [] 0).get? 3 =
        some (Event.send 0 (Payload.networkInit ["a"])) ∧
    (⟨0, some "a", true, false⟩ : Session).playerId = some "a" ∧
    "a" ∈ ["a"] := by
  refine ⟨rfl, rfl, ?_, rfl, by simp⟩
  decide

/-- Claim C2 (corrected): the session is appended to the room's session list
first (trace position 0), and only then are the three snapshot messages sent,
in the claimed order (positions 1-3); consequently the network-init frame
lists the playerIds of all attached sessions including the attaching
session's own non-null playerId. -/
theorem c2_append_before_snapshots
    (existing : List Session) (self : Session) (arrivals : List Msg)
    (dc : DataClientState) (fuel : Nat) (hself : self.sendOk = true) :
    (handleSessionTrace existing self arrivals dc fuel).get? 0 =
        some Event.pushSession ∧
    (handleSessionTrace existing self arrivals dc fuel).get? 1 =
        some (Event.send self.id Payload.importSnapshot) ∧
    (handleSessionTrace existing self arrivals dc fuel).get? 2 =
        some (Event.send self.id Payload.crdtSnapshot) ∧
    (handleSessionTrace existing self arrivals dc fuel).get? 3 =
        some (Event.send self.id (Payload.networkInit
          ((existing ++ [self]).filterMap (fun s => s.playerId)))) ∧
    ∀ p, self.playerId = some p →
      p ∈ (existing ++ [self]).filterMap (fun s => s.playerId) := by
  refine ⟨?_, ?_, ?_, ?_, ?_⟩
  · rw [handleSessionTrace_ok hself]
    rfl
  · rw [handleSessionTrace_ok hself]
    rfl
  · rw [handleSessionTrace_ok hself]
    rfl
  · rw [handleSessionTrace_ok hself]
    rfl
  · intro p hp
    exact List.mem_filterMap.mpr ⟨self, by simp, hp⟩

/-- Witness for the amended C2 at a concrete input. -/
theorem c2_witness :
    (handleSessionTrace [] ⟨7, some "z", true, false⟩ [] [] 0).get? 0 =
        some Event.pushSession ∧
    (handleSessionTrace [] ⟨7, some "z", true, false⟩ [] [] 0).get? 1 =
        some (Event.send 7 Payload.importSnapshot) ∧
    (handleSessionTrace [] ⟨7, some "z", true, false⟩ [] [] 0).get? 2 =
        some (Event.send 7 Payload.crdtSnapshot) ∧
    (handleSessionTrace [] ⟨7, some "z", true, false⟩ [] [] 0).get? 3 =
        some (Event.send 7 (Payload.networkInit
          ((([] ++ [⟨7, some "z", true, false⟩] : List Session)).filterMap
            (fun s => s.playerId)))) ∧
    ∀ p, (⟨7, some "z", true, false⟩ : Session).playerId = some p →
      p ∈ ((([] ++ [⟨7, some "z", true, false⟩] : List Session)).filterMap
        (fun s => s.playerId)) :=
  c2_append_before_snapshots [] ⟨7, some "z", true, false⟩ [] [] 0 rfl

/-- Claim C10 (confirmed): an attaching session whose `playerId` query
parameter is the empty string emits no join frame (neither proxied to peers
nor emitted into the data client): `_sendJoinMessage` tests the playerId for
truthiness, so the empty string behaves exactly like an absent playerId. -/
theorem c10_empty_playerid_no_join
    (existing : List Session) (self : Session) (arrivals : List Msg)
    (dc : DataClientState) (fuel : Nat)
    (sessions : List Session) (other : Session)
    (hpid : self.playerId = some "") :
    (handleSessionTrace existing self arrivals dc fuel).filter isJoinEvent = [] ∧
    sendJoinMessage sessions other (some "") = ([], true) ∧
    sendJoinMessage sessions other (some "") =
      sendJoinMessage sessions other none := by
  refine ⟨?_, rfl, rfl⟩
  by_cases hself : self.sendOk = true
  · rw [handleSessionTrace_ok hself, hpid]
    have hj : sendJoinMessage (existing ++ [self]) self (some "") = ([], true) := rfl
    rw [hj]
    simp [List.filter_cons, isJoinEvent, replaySteps_no_join]
  · simp [handleSessionTrace, hself, isJoinEvent]

/-- Witness for C10 at a concrete input. -/
theorem c10_witness :
    (handleSessionTrace [] ⟨0, some "", true, false⟩ [] [] 0).filter
        isJoinEvent = [] ∧
    sendJoinMessage [] ⟨1, some "q", true, false⟩ (some "") = ([], true) ∧
    sendJoinMessage [] ⟨1, some "q", true, false⟩ (some "") =
      sendJoinMessage [] ⟨1, some "q", true, false⟩ none :=
  c10_empty_playerid_no_join [] ⟨0, some "", true, false⟩ [] [] 0
    [] ⟨1, some "q", true, false⟩ rfl

/-- Claim C4 counterexample: the three send primitives have no try/catch and
no quit check.  First input: the failing socket of session 1 aborts
`proxyMessageToPeers`, so session 2 — a remaining, working session —
receives nothing, and the exception propagates.  Second input: a session
with `quit = true` is not skipped and still receives the message. -/
theorem c4_counterexample :
    proxyMessageToPeers [⟨1, none, false, false⟩, ⟨2, none, true, false⟩]
        ⟨0, none, true, false⟩ Payload.errorJson = ([], false) ∧
    proxyMessageToPeers [⟨3, none, true, true⟩] ⟨0, none, true, false⟩
        Payload.errorJson = ([Event.send 3 Payload.errorJson], true) := by
  decide

/-- Claim C4 (corrected): a send failure aborts the loop over the remaining
sessions and propagates to the caller, and the quit flag is not consulted.
The three primitives deliver, in list order, to every target session up to
the first failing socket (targets being everyone but the originator for
proxy, everyone for reflect, the originator for respond); in particular,
when every socket works, every targeted session — quit or not — receives
the message. -/
theorem c4_send_primitives_characterization
    (sessions : List Session) (self : Session) (m : Payload) :
    proxyMessageToPeers sessions self m =
      (((sessions.filter (fun s => s.id ≠ self.id)).takeWhile
          (fun s => s.sendOk)).map (fun s => Event.send s.id m),
       (sessions.filter (fun s => s.id ≠ self.id)).all (fun s => s.sendOk)) ∧
    reflectMessageToPeers sessions m =
      ((sessions.takeWhile (fun s => s.sendOk)).map (fun s => Event.send s.id m),
       sessions.all (fun s => s.sendOk)) ∧
    respondToSelf self m =
      (if self.sendOk then [Event.send self.id m] else [], self.sendOk) ∧
    ∀ s ∈ sessions, s.id ≠ self.id → (∀ x ∈ sessions, x.sendOk = true) →
      Event.send s.id m ∈ (proxyMessageToPeers sessions self m).1 := by
  refine ⟨proxy_eq sessions self m, reflect_eq sessions m, respond_eq self m, ?_⟩
  intro s hs hne hok
  rw [proxy_all_ok self m hok]
  exact List.mem_map.mpr ⟨s, List.mem_filter.mpr ⟨hs, by simpa using hne⟩, rfl⟩

/-- Witness for the amended C4 at a concrete input (the quantified equations
are closed; the final conjunct is discharged at a quit session, showing it
is delivered to). -/
theorem c4_witness :
    Event.send 3 Payload.errorJson ∈
      (proxyMessageToPeers [⟨3, some "b", true, true⟩] ⟨0, none, true, false⟩
        Payload.errorJson).1 :=
  (c4_send_primitives_characterization [⟨3, some "b", true, true⟩]
      ⟨0, none, true, false⟩ Payload.errorJson).2.2.2
    ⟨3, some "b", true, true⟩ (by decide) (by decide) (by decide)

/-- Claim C5 (confirmed): for a frame in the data-client method set, when
the apply yields a rollback it is sent only to the originating session (no
peer ever receives a rollback payload); when it yields an update, the update
is emitted locally and the original frame bytes are proxied to every other
session. -/
theorem c5_rollback_only_to_originator
    (sessions : List Session) (self : Session) (dc : DataClientState)
    (dh : DeadHands) (f : Frame)
    (hd : dataHandlesMethod f.method = true)
    (hself : self.sendOk = true)
    (hok : ∀ s ∈ sessions, s.sendOk = true)
    (hemit : f.hasUpdate = true → (emitFrameUpdate self.playerId dh f).2 = true) :
    (∀ t p, Event.send t (Payload.rollback p) ∈
        (handleBinaryMessage sessions self dc dh f).events →
        t = self.id ∧ p = f) ∧
    (f.hasRollback = true →
      Event.send self.id (Payload.rollback f) ∈
        (handleBinaryMessage sessions self dc dh f).events) ∧
    (f.hasRollback = false →
      ∀ t p, Event.send t (Payload.rollback p) ∉
        (handleBinaryMessage sessions self dc dh f).events) ∧
    (f.hasUpdate = true →
      Event.emitUpd f ∈ (handleBinaryMessage sessions self dc dh f).events ∧
      ∀ s ∈ sessions, s.id ≠ self.id →
        Event.send s.id (Payload.original f) ∈
          (handleBinaryMessage sessions self dc dh f).events) := by
  rw [hbm_data_eq hd hself hemit hok]
  refine ⟨?_, ?_, ?_, ?_⟩
  · intro t p ht
    rcases List.mem_append.mp ht with h | h
    · by_cases hr : f.hasRollback = true
      · rw [if_pos hr] at h
        rcases List.mem_singleton.mp h with h
        exact ⟨by injection h, by injection h with h1 h2; injection h2⟩
      · simp [hr] at h
    · by_cases hu : f.hasUpdate = true
      · rw [if_pos hu] at h
        rcases List.mem_cons.mp h with h | h
        · cases h
        · rcases List.mem_map.mp h with ⟨s, _, h⟩
          injection h with h1 h2
          cases h2
      · simp [hu] at h
  · intro hr
    exact List.mem_append.mpr (Or.inl (by simp [hr]))
  · intro hr t p ht
    rcases List.mem_append.mp ht with h | h
    · simp [hr] at h
    · by_cases hu : f.hasUpdate = true
      · rw [if_pos hu] at h
        rcases List.mem_cons.mp h with h | h
        · cases h
        · rcases List.mem_map.mp h with ⟨s, _, h⟩
          injection h with h1 h2
          cases h2
      · simp [hu] at h
  · intro hu
    constructor
    · exact List.mem_append.mpr (Or.inr (by simp [hu]))
    · intro s hs hne
      refine List.mem_append.mpr (Or.inr ?_)
      rw [if_pos hu]
      refine List.mem_cons.mpr (Or.inr ?_)
      exact List.mem_map.mpr ⟨s, List.mem_filter.mpr ⟨hs, by simpa using hne⟩, rfl⟩

/-- Witness for C5 at a concrete input: a data frame with both rollback and
update, one peer. -/
theorem c5_witness :
    (∀ t p, Event.send t (Payload.rollback p) ∈
        (handleBinaryMessage [⟨0, some "a", true, false⟩, ⟨1, some "b", true, false⟩]
          ⟨0, some "a", true, false⟩ [] [] ⟨13, true, true, none⟩).events →
        t = 0 ∧ p = (⟨13, true, true, none⟩ : Frame)) ∧
    ((⟨13, true, true, none⟩ : Frame).hasRollback = true →
      Event.send 0 (Payload.rollback ⟨13, true, true, none⟩) ∈
        (handleBinaryMessage [⟨0, some "a", true, false⟩, ⟨1, some "b", true, false⟩]
          ⟨0, some "a", true, false⟩ [] [] ⟨13, true, true, none⟩).events) ∧
    ((⟨13, true, true, none⟩ : Frame).hasRollback = false →
      ∀ t p, Event.send t (Payload.rollback p) ∉
        (handleBinaryMessage [⟨0, some "a", true, false⟩, ⟨1, some "b", true, false⟩]
          ⟨0, some "a", true, false⟩ [] [] ⟨13, true, true, none⟩).events) ∧
    ((⟨13, true, true, none⟩ : Frame).hasUpdate = true →
      Event.emitUpd ⟨13, true, true, none⟩ ∈
        (handleBinaryMessage [⟨0, some "a", true, false⟩, ⟨1, some "b", true, false⟩]
          ⟨0, some "a", true, false⟩ [] [] ⟨13, true, true, none⟩).events ∧
      ∀ s ∈ [(⟨0, some "a", true, false⟩ : Session), ⟨1, some "b", true, false⟩],
        s.id ≠ 0 →
        Event.send s.id (Payload.original ⟨13, true, true, none⟩) ∈
          (handleBinaryMessage [⟨0, some "a", true, false⟩, ⟨1, some "b", true, false⟩]
            ⟨0, some "a", true, false⟩ [] [] ⟨13, true, true, none⟩).events) :=
  c5_rollback_only_to_originator
    [⟨0, some "a", true, false⟩, ⟨1, some "b", true, false⟩]
    ⟨0, some "a", true, false⟩ [] [] ⟨13, true, true, none⟩
    (by decide) (by decide) (by decide) (by decide)

/-- Claim C6 counterexample: a data-class frame whose apply yields only a
rollback (no update) is delivered to no peer — the source proxies the
original bytes only inside `if (update)` — so "the original bytes are
delivered to every session except S" fails for session 1. -/
theorem c6_counterexample :
    dataHandlesMethod (Frame.mk 13 true false none).method = true ∧
    (handleBinaryMessage
        [⟨0, some "a", true, false⟩, ⟨1, some "b", true, false⟩]
        ⟨0, some "a", true, false⟩ [] [] ⟨13, true, false, none⟩).events =
      [Event.send 0 (Payload.rollback ⟨13, true, false, none⟩)] ∧
    Event.send 1 (Payload.original ⟨13, true, false, none⟩) ∉
      (handleBinaryMessage
        [⟨0, some "a", true, false⟩, ⟨1, some "b", true, false⟩]
        ⟨0, some "a", true, false⟩ [] [] ⟨13, true, false, none⟩).events := by
  decide

/-- Claim C6 (corrected): with working sockets, an IRC-class frame from S is
reflected to every session including S itself; an audio- or video-class
frame is proxied to every session except S; a data-class frame is proxied to
every session except S exactly when the apply yields an update (a
rollback-only data frame reaches no peer); and a data/audio/video-class
frame is never delivered back to S. -/
theorem c6_reflect_vs_proxy
    (sessions : List Session) (self : Session) (dc : DataClientState)
    (dh : DeadHands) (f : Frame)
    (hok : ∀ s ∈ sessions, s.sendOk = true)
    (hmem : self ∈ sessions)
    (hemit : f.hasUpdate = true → (emitFrameUpdate self.playerId dh f).2 = true) :
    (ircHandlesMethod f.method = true →
      ∀ s ∈ sessions, Event.send s.id (Payload.original f) ∈
        (handleBinaryMessage sessions self dc dh f).events) ∧
    ((audioHandlesMethod f.method = true ∨ videoHandlesMethod f.method = true) →
      (∀ s ∈ sessions, s.id ≠ self.id →
        Event.send s.id (Payload.original f) ∈
          (handleBinaryMessage sessions self dc dh f).events) ∧
      Event.send self.id (Payload.original f) ∉
        (handleBinaryMessage sessions self dc dh f).events) ∧
    (dataHandlesMethod f.method = true →
      (f.hasUpdate = true → ∀ s ∈ sessions, s.id ≠ self.id →
        Event.send s.id (Payload.original f) ∈
          (handleBinaryMessage sessions self dc dh f).events) ∧
      (f.hasUpdate = false → ∀ t,
        Event.send t (Payload.original f) ∉
          (handleBinaryMessage sessions self dc dh f).events) ∧
      Event.send self.id (Payload.original f) ∉
        (handleBinaryMessage sessions self dc dh f).events) := by
  have hself : self.sendOk = true := hok self hmem
  refine ⟨?_, ?_, ?_⟩
  · intro hi s hs
    rw [hbm_irc_eq hi hok]
    exact List.mem_map.mpr ⟨s, hs, rfl⟩
  · intro hav
    rw [hbm_av_eq hav hok]
    constructor
    · intro s hs hne
      exact List.mem_map.mpr ⟨s, List.mem_filter.mpr ⟨hs, by simpa using hne⟩, rfl⟩
    · intro hcontra
      rcases List.mem_map.mp hcontra with ⟨s, hsf, h⟩
      have hne : s.id ≠ self.id := by
        have := List.mem_filter.mp hsf
        simpa using this.2
      injection h with h1 _
      exact hne h1
  · intro hd
    rw [hbm_data_eq hd hself hemit hok]
    refine ⟨?_, ?_, ?_⟩
    · intro hu s hs hne
      refine List.mem_append.mpr (Or.inr ?_)
      rw [if_pos hu]
      exact List.mem_cons.mpr (Or.inr
        (List.mem_map.mpr ⟨s, List.mem_filter.mpr ⟨hs, by simpa using hne⟩, rfl⟩))
    · intro hu t ht
      rcases List.mem_append.mp ht with h | h
      · by_cases hr : f.hasRollback = true
        · rw [if_pos hr] at h
          rcases List.mem_singleton.mp h with h
          injection h with h1 h2
          cases h2
        · simp [hr] at h
      · simp [hu] at h
    · intro hcontra
      rcases List.mem_append.mp hcontra with h | h
      · by_cases hr : f.hasRollback = true
        · rw [if_pos hr] at h
          rcases List.mem_singleton.mp h with h
          injection h with h1 h2
          cases h2
        · simp [hr] at h
      · by_cases hu : f.hasUpdate = true
        · rw [if_pos hu] at h
          rcases List.mem_cons.mp h with h | h
          · cases h
          · rcases List.mem_map.mp h with ⟨s, hsf, h⟩
            have hne : s.id ≠ self.id := by
              have := List.mem_filter.mp hsf
              simpa using this.2
            injection h with h1 _
            exact hne h1
        · simp [hu] at h

/-- Witness for the amended C6 at a concrete input: an audio frame from
session 0 with one peer. -/
theorem c6_witness :
    (ircHandlesMethod (Frame.mk 7 false false none).method = true →
      ∀ s ∈ [(⟨0, some "a", true, false⟩ : Session), ⟨1, some "b", true, false⟩],
        Event.send s.id (Payload.original ⟨7, false, false, none⟩) ∈
          (handleBinaryMessage
            [⟨0, some "a", true, false⟩, ⟨1, some "b", true, false⟩]
            ⟨0, some "a", true, false⟩ [] [] ⟨7, false, false, none⟩).events) ∧
    ((audioHandlesMethod (Frame.mk 7 false false none).method = true ∨
      videoHandlesMethod (Frame.mk 7 false false none).method = true) →
      (∀ s ∈ [(⟨0, some "a", true, false⟩ : Session), ⟨1, some "b", true, false⟩],
        s.id ≠ (⟨0, some "a", true, false⟩ : Session).id →
        Event.send s.id (Payload.original ⟨7, false, false, none⟩) ∈
          (handleBinaryMessage
            [⟨0, some "a", true, false⟩, ⟨1, some "b", true, false⟩]
            ⟨0, some "a", true, false⟩ [] [] ⟨7, false, false, none⟩).events) ∧
      Event.send (⟨0, some "a", true, false⟩ : Session).id
          (Payload.original ⟨7, false, false, none⟩) ∉
        (handleBinaryMessage
          [⟨0, some "a", true, false⟩, ⟨1, some "b", true, false⟩]
          ⟨0, some "a", true, false⟩ [] [] ⟨7, false, false, none⟩).events) ∧
    (dataHandlesMethod (Frame.mk 7 false false none).method = true →
      ((Frame.mk 7 false false none).hasUpdate = true →
        ∀ s ∈ [(⟨0, some "a", true, false⟩ : Session), ⟨1, some "b", true, false⟩],
          s.id ≠ (⟨0, some "a", true, false⟩ : Session).id →
          Event.send s.id (Payload.original ⟨7, false, false, none⟩) ∈
            (handleBinaryMessage
              [⟨0, some "a", true, false⟩, ⟨1, some "b", true, false⟩]
              ⟨0, some "a", true, false⟩ [] [] ⟨7, false, false, none⟩).events) ∧
      ((Frame.mk 7 false false none).hasUpdate = false → ∀ t,
        Event.send t (Payload.original ⟨7, false, false, none⟩) ∉
          (handleBinaryMessage
            [⟨0, some "a", true, false⟩, ⟨1, some "b", true, false⟩]
            ⟨0, some "a", true, false⟩ [] [] ⟨7, false, false, none⟩).events) ∧
      Event.send (⟨0, some "a", true, false⟩ : Session).id
          (Payload.original ⟨7, false, false, none⟩) ∉
        (handleBinaryMessage
          [⟨0, some "a", true, false⟩, ⟨1, some "b", true, false⟩]
          ⟨0, some "a", true, false⟩ [] [] ⟨7, false, false, none⟩).events) :=
  c6_reflect_vs_proxy
    [⟨0, some "a", true, false⟩, ⟨1, some "b", true, false⟩]
    ⟨0, some "a", true, false⟩ [] [] ⟨7, false, false, none⟩
    (by decide) (by decide) (by decide)

/-- A key list containing a malformed composite key makes the `deadhand`
listener loop throw. -/
theorem registerDeadHandKeys_fails :
    ∀ {dh : DeadHands} {keys : List String},
      (∃ k ∈ keys, parseDeadHandKey k = none) →
      (registerDeadHandKeys dh keys).2 = false := by
  intro dh keys
  induction keys generalizing dh with
  | nil =>
    rintro ⟨k, hk, _⟩
    simp at hk
  | cons k rest ih =>
    rintro ⟨k', hk', hbad⟩
    unfold registerDeadHandKeys
    cases hp : parseDeadHandKey k
    · rfl
    · rcases List.mem_cons.mp hk' with rfl | hk'
      · rw [hp] at hbad
        cases hbad
      · exact ih ⟨k', hk', hbad⟩

/-- Claim C7 (confirmed): a protocol violation on a live session — a
non-binary (text) inbound frame, or a data update whose dead-hand event
carries a key matching neither `<arrayId>.<arrayIndexId>` nor `<arrayId>` —
is answered with an error message on the originating transport only; the
session list is untouched and subsequent frames are still dispatched. -/
theorem c7_protocol_violation_reported_not_dropped
    (sessions : List Session) (self : Session) (dc : DataClientState)
    (dh : DeadHands) (str : String) (f : Frame) (e : HandEvent)
    (rest : List Msg)
    (hq : self.quit = false) (hself : self.sendOk = true) :
    onMessage sessions self dc dh (Msg.text str) =
      ([Event.send self.id Payload.errorJson], sessions, dc, dh) ∧
    runInbound sessions self dc dh (Msg.text str :: rest) =
      Event.send self.id Payload.errorJson ::
        runInbound sessions self dc dh rest ∧
    (dataHandlesMethod f.method = true → f.hasUpdate = true →
      f.handEvent = some e → e.isDead = true → e.hand = self.playerId →
      (∃ k ∈ e.keys, parseDeadHandKey k = none) →
      (onMessage sessions self dc dh (Msg.binary f)).2.1 = sessions ∧
      Event.send self.id Payload.errorJson ∈
        (onMessage sessions self dc dh (Msg.binary f)).1 ∧
      ∀ t p, Event.send t p ∈ (onMessage sessions self dc dh (Msg.binary f)).1 →
        t = self.id) := by
  have htext : onMessage sessions self dc dh (Msg.text str) =
      ([Event.send self.id Payload.errorJson], sessions, dc, dh) := by
    unfold onMessage
    rw [if_neg (by simp [hq])]
    dsimp only
    rw [respond_eq, hself]
    simp
  refine ⟨htext, ?_, ?_⟩
  · conv_lhs => rw [runInbound, htext]
    rfl
  · intro hd hu hev hdead hhand hbadkey
    have hfail : (emitFrameUpdate self.playerId dh f).2 = false := by
      unfold emitFrameUpdate
      rw [hev]
      dsimp only
      unfold deadHandListener
      rw [if_pos hdead, if_pos hhand]
      exact registerDeadHandKeys_fails hbadkey
    have hbm := @hbm_data_emit_fail sessions self dc dh f hd hself hu hfail
    have hnotok : ¬ (handleBinaryMessage sessions self dc dh f).ok = true := by
      simp [hbm]
    have honm : onMessage sessions self dc dh (Msg.binary f) =
        ((handleBinaryMessage sessions self dc dh f).events ++
          (respondToSelf self Payload.errorJson).1, sessions,
          (handleBinaryMessage sessions self dc dh f).dc,
          (handleBinaryMessage sessions self dc dh f).dh) := by
      unfold onMessage
      rw [if_neg (by simp [hq])]
      dsimp only
      rw [if_neg hnotok]
    refine ⟨by rw [honm], ?_, ?_⟩
    · rw [honm]
      refine List.mem_append.mpr (Or.inr ?_)
      rw [respond_eq, hself]
      simp
    · intro t p ht
      rw [honm] at ht
      rcases List.mem_append.mp ht with h | h
      · rw [hbm] at h
        have h' : Event.send t p ∈
            (if f.hasRollback = true then [Event.send self.id (Payload.rollback f)]
              else []) ++ [Event.emitUpd f] := h
        rcases List.mem_append.mp h' with h2 | h2
        · by_cases hr : f.hasRollback = true
          · rw [if_pos hr] at h2
            simp only [List.mem_singleton, Event.send.injEq] at h2
            exact h2.1
          · simp [hr] at h2
        · simp at h2
      · have h2 := mem_respond h
        simp only [Event.send.injEq] at h2
        exact h2.1

/-- Witness for C7 at a concrete input: a text frame and a data frame whose
dead-hand event carries the malformed key `a.b.c`. -/
theorem c7_witness :
    onMessage [⟨0, some "p", true, false⟩] ⟨0, some "p", true, false⟩ [] []
        (Msg.text "hello") =
      ([Event.send 0 Payload.errorJson], [⟨0, some "p", true, false⟩], [], []) ∧
    runInbound [⟨0, some "p", true, false⟩] ⟨0, some "p", true, false⟩ [] []
        (Msg.text "hello" :: [Msg.binary ⟨7, false, false, none⟩]) =
      Event.send 0 Payload.errorJson ::
        runInbound [⟨0, some "p", true, false⟩] ⟨0, some "p", true, false⟩ [] []
          [Msg.binary ⟨7, false, false, none⟩] ∧
    (dataHandlesMethod (Frame.mk 13 false true
        (some ⟨["a.b.c"], some "p", true⟩)).method = true →
      (Frame.mk 13 false true (some ⟨["a.b.c"], some "p", true⟩)).hasUpdate = true →
      (Frame.mk 13 false true (some ⟨["a.b.c"], some "p", true⟩)).handEvent =
        some ⟨["a.b.c"], some "p", true⟩ →
      (HandEvent.mk ["a.b.c"] (some "p") true).isDead = true →
      (HandEvent.mk ["a.b.c"] (some "p") true).hand =
        (⟨0, some "p", true, false⟩ : Session).playerId →
      (∃ k ∈ (HandEvent.mk ["a.b.c"] (some "p") true).keys,
        parseDeadHandKey k = none) →
      (onMessage [⟨0, some "p", true, false⟩] ⟨0, some "p", true, false⟩ [] []
        (Msg.binary ⟨13, false, true, some ⟨["a.b.c"], some "p", true⟩⟩)).2.1 =
        [⟨0, some "p", true, false⟩] ∧
      Event.send 0 Payload.errorJson ∈
        (onMessage [⟨0, some "p", true, false⟩] ⟨0, some "p", true, false⟩ [] []
          (Msg.binary ⟨13, false, true, some ⟨["a.b.c"], some "p", true⟩⟩)).1 ∧
      ∀ t p, Event.send t p ∈
        (onMessage [⟨0, some "p", true, false⟩] ⟨0, some "p", true, false⟩ [] []
          (Msg.binary ⟨13, false, true, some ⟨["a.b.c"], some "p", true⟩⟩)).1 →
        t = 0) :=
  c7_protocol_violation_reported_not_dropped
    [⟨0, some "p", true, false⟩] ⟨0, some "p", true, false⟩ [] [] "hello"
    ⟨13, false, true, some ⟨["a.b.c"], some "p", true⟩⟩
    ⟨["a.b.c"], some "p", true⟩ [Msg.binary ⟨7, false, false, none⟩]
    rfl rfl

/-- With working sockets, the array-scope inner loop proxies one remove
update per key to every peer, in order. -/
theorem proxyRemoves_all_ok {sessions : List Session} {self : Session}
    (hok : ∀ s ∈ sessions, s.sendOk = true) (arrayId : String) :
    ∀ keys : List String,
      proxyRemoves sessions self arrayId keys =
        (keys.flatMap (fun i => (sessions.filter (fun s => s.id ≠ self.id)).map
          (fun s => Event.send s.id (Payload.removeUpdate arrayId i))), true)
  | [] => by simp [proxyRemoves]
  | i :: rest => by
    unfold proxyRemoves
    rw [proxy_all_ok self (Payload.removeUpdate arrayId i) hok]
    dsimp only
    rw [proxyRemoves_all_ok hok arrayId rest]
    simp

/-- Claim C8 (confirmed): with working peer sockets, the dead-hand cleanup
loop produces, for every entry of the session's `deadHands` table, exactly
the remove updates the spec prescribes (`removalEvents`): map scope sends
the map's remove to every peer when the array still contains the key (and
nothing otherwise); array scope sends one remove per key currently in the
array to every peer.  The data-client state `dc` is only read — the loop
synthesizes and proxies removes, it never mutates the local replica. -/
theorem c8_dead_hand_cleanup
    (sessions : List Session) (self : Session) (dc : DataClientState)
    (dh : DeadHands)
    (hok : ∀ s ∈ sessions, s.sendOk = true) :
    triggerDeadHands sessions self dc dh =
      (dh.flatMap (fun ke => removalEvents sessions self dc ke.2), true) := by
  induction dh with
  | nil => rfl
  | cons ke rest ih =>
    rcases ke with ⟨k, arrayId, idx⟩
    rcases idx with _ | i
    · unfold triggerDeadHands
      dsimp only
      rw [proxyRemoves_all_ok hok arrayId (dcKeys dc arrayId)]
      dsimp only
      rw [ih]
      simp [removalEvents]
    · unfold triggerDeadHands
      dsimp only
      by_cases hc : (dcKeys dc arrayId).contains i = true
      · rw [if_pos hc, proxy_all_ok self (Payload.removeUpdate arrayId i) hok]
        dsimp only
        rw [ih]
        have hm : i ∈ dcKeys dc arrayId := by simpa using hc
        simp [removalEvents, hm]
      · rw [if_neg hc, ih]
        simp only [Bool.not_eq_true] at hc
        have hm : i ∉ dcKeys dc arrayId := by simpa using hc
        simp [removalEvents, hm]

/-- Witness for C8 at the spec's S4 scenario: session 0 owns the whole
`worldApps` array (array scope), the array holds `x1` and `x2`, and peer 1
receives a remove update for both. -/
theorem c8_witness :
    triggerDeadHands [⟨1, some "b", true, false⟩] ⟨0, some "a", true, false⟩
        [("worldApps", ["x1", "x2"])]
        [("worldApps", ⟨"worldApps", none⟩)] =
      (([("worldApps", (⟨"worldApps", none⟩ : DeadHandEntry))]).flatMap
        (fun ke => removalEvents [⟨1, some "b", true, false⟩]
          ⟨0, some "a", true, false⟩ [("worldApps", ["x1", "x2"])] ke.2),
       true) :=
  c8_dead_hand_cleanup [⟨1, some "b", true, false⟩] ⟨0, some "a", true, false⟩
    [("worldApps", ["x1", "x2"])] [("worldApps", ⟨"worldApps", none⟩)]
    (by decide)

/-- Claim C9 (confirmed): a request routed to the room object's `websocket`
endpoint whose Upgrade header is not `websocket` receives an HTTP 400
response with body `expected websocket`, and the room object — session list
and lazy-init state — is unchanged (no session is attached). -/
theorem c9_non_websocket_upgrade_400
    (room : RoomObject) (storage : Storage) (req : HttpRequest)
    (hpath : ((matchRoomPath req.pathname).getD ("", "")).2 = "websocket")
    (hup : req.upgradeHeader ≠ some "websocket") :
    chatRoomFetch room storage req =
      (⟨400, some "expected websocket"⟩, room) := by
  unfold chatRoomFetch
  dsimp only
  rw [if_pos hpath, if_pos hup]

/-- Witness for C9 at a concrete input: a plain GET of
`/r1/websocket` with no Upgrade header. -/
theorem c9_witness :
    chatRoomFetch ⟨[], initialRoomInitState⟩ []
        ⟨"/r1/websocket", none, none⟩ =
      (⟨400, some "expected websocket"⟩, ⟨[], initialRoomInitState⟩) :=
  c9_non_websocket_upgrade_400 ⟨[], initialRoomInitState⟩ []
    ⟨"/r1/websocket", none, none⟩ (by decide) (by decide)

/-- Claim C3 counterexample: single-flight initialization holds, but the
"at most one get of the key `crdt`" part fails when the object stored under
`worldApps` has a property key literally named `crdt`: the data-client
initialization's per-index read (`readCrdtFromStorage`) then gets `crdt`
once, and the CRDT-client initialization gets it again — two gets of `crdt`
in the lifetime of a room attached once. -/
theorem c3_counterexample :
    (runAttaches [("worldApps", ["crdt"])] 1).1.getLog =
      ["worldApps", "crdt", "crdt"] ∧
    (runAttaches [("worldApps", ["crdt"])] 1).1.getLog.count "crdt" = 2 := by
  decide

/-- One attach initializes all three clients; every later attach reuses the
same promises, leaving the state and the get log untouched. -/
theorem runAttaches_succ (storage : Storage) :
    ∀ n : Nat, runAttaches storage (n + 1) =
      (⟨some 0, some 1, some 2, 3, readCrdtGets storage ++ ["crdt"]⟩,
       List.replicate (n + 1) (0, 1, 2))
  | 0 => rfl
  | n + 1 => by
    unfold runAttaches
    rw [runAttaches_succ storage n]
    dsimp only [attachInit]
    rw [← List.replicate_succ']

/-- Claim C3 (corrected): the three per-room clients are initialized at most
once — every attach to the room, concurrent or later, observes the same
three instances — and, provided no `arrayIndexId` stored under a schema
array collides with a schema array name or with `crdt` (the caveat the
counterexample forces), the storage layer observes at most one get of each
schema array key and at most one get of `crdt` across the room's lifetime.
The promise check-and-create section (source lines 270-308) contains no
`await`, so under the single-threaded room model it is atomic and the
sequential `runAttaches` is faithful to concurrent attaches. -/
theorem c3_single_flight_init
    (storage : Storage) (n : Nat)
    (hdisj : ∀ a ∈ schemaArrayNames, ∀ k ∈ storedKeys storage a,
      k ∉ schemaArrayNames ∧ k ≠ "crdt") :
    (runAttaches storage n).1.getLog.count "crdt" ≤ 1 ∧
    (∀ a ∈ schemaArrayNames, (runAttaches storage n).1.getLog.count a ≤ 1) ∧
    ∀ r ∈ (runAttaches storage n).2, r = (0, 1, 2) := by
  have hkeys : ∀ k ∈ storedKeys storage "worldApps",
      k ≠ "worldApps" ∧ k ≠ "crdt" := by
    intro k hk
    have h := hdisj "worldApps" (by simp [schemaArrayNames]) k hk
    exact ⟨fun hcontra => h.1 (by simp [schemaArrayNames, hcontra]), h.2⟩
  have hread : readCrdtGets storage = "worldApps" :: storedKeys storage "worldApps" := by
    simp [readCrdtGets, schemaArrayNames]
  have hcrdt0 : (readCrdtGets storage).count "crdt" = 0 := by
    rw [List.count_eq_zero, hread]
    intro hmem
    rcases List.mem_cons.mp hmem with h | h
    · exact absurd h (by decide)
    · exact (hkeys "crdt" h).2 rfl
  have hworld1 : (readCrdtGets storage).count "worldApps" = 1 := by
    rw [hread, List.count_cons_self,
      List.count_eq_zero.mpr (fun hmem => (hkeys "worldApps" hmem).1 rfl)]
  rcases n with _ | n
  · exact ⟨by simp [runAttaches, initialRoomInitState],
      fun a _ => by simp [runAttaches, initialRoomInitState],
      fun r hr => by simp [runAttaches] at hr⟩
  · rw [runAttaches_succ storage n]
    refine ⟨?_, ?_, ?_⟩
    · dsimp only
      rw [List.count_append, hcrdt0]
      simp
    · intro a ha
      rcases List.mem_singleton.mp ha with rfl
      dsimp only
      rw [List.count_append, hworld1]
      simp
    · intro r hr
      exact List.eq_of_mem_replicate hr

/-- Witness for the corrected C3 at a concrete input: storage whose
`worldApps` array holds the key `x1`, two attaches. -/
theorem c3_witness :
    (runAttaches [("worldApps", ["x1"])] 2).1.getLog.count "crdt" ≤ 1 ∧
    (∀ a ∈ schemaArrayNames,
      (runAttaches [("worldApps", ["x1"])] 2).1.getLog.count a ≤ 1) ∧
    ∀ r ∈ (runAttaches [("worldApps", ["x1"])] 2).2, r = (0, 1, 2) :=
  c3_single_flight_init [("worldApps", ["x1"])] 2 (by decide)

end Multiplayer
